import Mathlib

/-!
Verification of `main.py` of the translated-subs repository: a batch pipeline
that extracts audio from selected `.mp4` files, transcribes it with Whisper,
translates each transcript segment, and writes the result as SRT subtitle
files under two language-code naming conventions.

The Python source is embedded shallowly: pure computations (file filtering,
selection validation, segment translation, subtitle construction, SRT
serialization, output-path computation) become Lean functions; the
side-effecting per-video loop of `main()` becomes an interpreter over an
`Env` of external-call oracles (ffmpeg, Whisper, the translation backend,
filesystem writes), producing a trace of filesystem/model events.  Python
floats for segment times are modelled as rationals; Python strings as Lean
strings, with the handful of needed `str` methods re-implemented over the
character list so that everything evaluates inside the kernel.
-/

namespace TranslatedSubs

/-- Python `str.lower()` (ASCII-relevant part: maps each character to lower
case; the file-extension test only ever compares ASCII). -/
def pyLower (s : String) : String := ⟨s.data.map Char.toLower⟩

/-- `List`-level suffix test used to model Python `str.endswith`. -/
def listEndsWith (suf l : List Char) : Bool :=
  l.reverse.take suf.length == suf.reverse

/-- Python `s.endswith(suf)`. -/
def pyEndsWith (s suf : String) : Bool := listEndsWith suf.data s.data

/-- Python `str.strip()`: removes leading and trailing whitespace. -/
def pyStrip (s : String) : String :=
  ⟨((s.data.dropWhile Char.isWhitespace).reverse.dropWhile Char.isWhitespace).reverse⟩

/-- Python `os.path.splitext(file)[0]`: the name up to the last dot, except
that a basename whose characters before the last dot are all dots (e.g.
`".bashrc"`) is returned whole. -/
def splitextBase (file : String) : String :=
  match file.data.reverse.dropWhile (· ≠ '.') with
  | [] => file
  | _ :: rest => if rest.reverse.all (· = '.') then file else ⟨rest.reverse⟩

/-- Python `os.path.join(folder, name)` on a POSIX system (the script joins a
user-supplied folder with a basename). -/
def joinPath (folder name : String) : String := folder ++ "/" ++ name

/-- Line 88: `[f for f in os.listdir(folder) if f.lower().endswith(".mp4")]`. -/
def listVideoFiles (entries : List String) : List String :=
  entries.filter (fun f => pyEndsWith (pyLower f) ".mp4")

/-- Value of a list of ASCII digits, most significant first. -/
def digitsVal (cs : List Char) : ℕ :=
  cs.foldl (fun a c => 10 * a + (c.toNat - '0'.toNat)) 0

/-- Python `int(x)` on an already-`split()` token: an optional sign followed
by one or more digits.  (`int` additionally accepts underscores between
digits and non-ASCII decimal digits; those inputs are out of scope and would
only make more inputs parse.) -/
def parsePyInt (s : String) : Option ℤ :=
  match s.data with
  | '-' :: rest =>
      if rest.isEmpty then none
      else if rest.all Char.isDigit then some (-(digitsVal rest : ℤ)) else none
  | '+' :: rest =>
      if rest.isEmpty then none
      else if rest.all Char.isDigit then some (digitsVal rest : ℤ) else none
  | cs =>
      if cs.isEmpty then none
      else if cs.all Char.isDigit then some (digitsVal cs : ℤ) else none

/-- Line 102: `[int(x) for x in selected]`; `none` models the `ValueError`
branch that makes the loop re-prompt. -/
def parseAll : List String → Option (List ℤ)
  | [] => some []
  | t :: ts =>
      match parsePyInt t, parseAll ts with
      | some i, some is => some (i :: is)
      | _, _ => none

/-- Lines 98-109: one iteration of the selection loop over `n` listed files.
`some idxs` means the input is accepted (loop `break`s); `none` means the
loop re-prompts (`ValueError` or an out-of-range number). -/
def readSelection (n : ℕ) (tokens : List String) : Option (List ℤ) :=
  match parseAll tokens with
  | none => none
  | some idxs =>
      if idxs.any (fun i => decide (i < 1) || decide ((n : ℤ) < i)) then none
      else some idxs

/-- Line 111: `[video_files[i - 1] for i in selected_indices]`.  Python list
indexing is modelled with `get?`; the selection loop guarantees the index is
in bounds, so the `none` branch (an `IndexError`) is never taken. -/
def selectFiles (files : List String) : List ℤ → List String
  | [] => []
  | i :: is =>
      match files.get? (i - 1).toNat with
      | none => selectFiles files is
      | some f => f :: selectFiles files is

/-- A Whisper transcript segment: the `start`/`end`/`text` fields of the
dicts in `result["segments"]` (`end` is a reserved word in Lean, hence
`stop`).  Times are seconds, modelled as rationals. -/
structure Segment where
  start : ℚ
  stop : ℚ
  text : String
deriving DecidableEq

/-- An `srt.Subtitle` object (lines 177-183): `index`, `start`, `end`
(timedeltas, here rational seconds) and `content`. -/
structure Subtitle where
  index : ℕ
  start : ℚ
  stop : ℚ
  content : String
deriving DecidableEq

/-- Microseconds of a `datetime.timedelta(seconds=q)` for `q ≥ 0`:
`⌊q · 10^6⌋` computed on the reduced fraction.  (Python rounds the float to
the nearest microsecond; every concrete value used here is exact at
microsecond resolution, where the two agree.  Negative times, which cannot
occur for transcript segments, clamp to zero.) -/
def microsOfSeconds (q : ℚ) : ℕ := ((q.num * 1000000).fdiv (q.den : ℤ)).toNat

/-- `%02d`. -/
def pad2 (n : ℕ) : String := if n < 10 then "0" ++ toString n else toString n

/-- `%03d`. -/
def pad3 (n : ℕ) : String :=
  if n < 10 then "00" ++ toString n
  else if n < 100 then "0" ++ toString n
  else toString n

/-- `srt.timedelta_to_srt_timestamp` of the srt library (an external
dependency of `main.py`), on a nonnegative timedelta given in total
microseconds: `"%02d:%02d:%02d,%03d" % (hrs, mins, secs, msecs)`. -/
def srtTimestampOfMicros (t : ℕ) : String :=
  pad2 (t / 1000000 / 3600) ++ ":" ++ pad2 (t / 1000000 % 3600 / 60) ++ ":"
    ++ pad2 (t / 1000000 % 60) ++ "," ++ pad3 (t % 1000000 / 1000)

/-- Timestamp of a time in (rational) seconds. -/
def srtTimestamp (q : ℚ) : String := srtTimestampOfMicros (microsOfSeconds q)

/-- Split at newline characters (Python `str.splitlines` restricted to
`"\n"`, the only separator the script's data can contain). -/
def splitOnNl : List Char → List (List Char)
  | [] => [[]]
  | c :: rest =>
      match splitOnNl rest with
      | [] => [[c]]
      | l :: ls => if c = '\n' then [] :: l :: ls else (c :: l) :: ls

/-- `srt.make_legal_content`: drops blank lines from the content (the
`strict=True` default of `Subtitle.to_srt`). -/
def makeLegalContent (s : String) : String :=
  String.intercalate "\n"
    (((splitOnNl s.data).map (fun cs => (⟨cs⟩ : String))).filter
      (fun l => pyStrip l ≠ ""))

/-- `srt.Subtitle.to_srt` with the defaults used by `srt.compose`:
`"{idx}\n{start} --> {end}\n{content}\n\n"`. -/
def subtitleToSrt (sub : Subtitle) : String :=
  toString sub.index ++ "\n" ++ srtTimestamp sub.start ++ " --> "
    ++ srtTimestamp sub.stop ++ "\n" ++ makeLegalContent sub.content ++ "\n\n"

/-- The ordering `srt.Subtitle` sorts under: lexicographic on
`(start, end)`. -/
def subtitleLe (a b : Subtitle) : Bool :=
  decide (a.start < b.start) || (decide (a.start = b.start) && decide (a.stop ≤ b.stop))

/-- Stable insertion used to model Python's stable `sorted`. -/
def insertSorted (x : Subtitle) : List Subtitle → List Subtitle
  | [] => [x]
  | y :: ys => if subtitleLe x y then x :: y :: ys else y :: insertSorted x ys

/-- Python `sorted(subtitles)` (stable, by `(start, end)`). -/
def srtSort : List Subtitle → List Subtitle
  | [] => []
  | x :: xs => insertSorted x (srtSort xs)

/-- `srt.compose(subtitles)` (line 184): sorts the entries (`reorder=True`
default) and concatenates their serializations.  Note: it never raises on
non-monotonic input; it silently reorders. -/
def srtCompose (subs : List Subtitle) : String :=
  String.join ((srtSort subs).map subtitleToSrt)

/-- Lines 169-172: the translation loop.  `tr` is the oracle for
`translate_text(original_text, src_lang, tgt_lang, translator)`; `none`
models an exception from the backend.  Each segment's text is stripped and
replaced by its translation, in place, in order. -/
def translateLoop (tr : String → Option String) : List Segment → Option (List Segment)
  | [] => some []
  | s :: rest =>
      match tr (pyStrip s.text) with
      | none => none
      | some t =>
          match translateLoop tr rest with
          | none => none
          | some rest2 => some ({ s with text := t } :: rest2)

/-- Lines 175-183: `for idx, seg in enumerate(transcript_segments, start=1)`
building `srt.Subtitle` objects, starting at index `i`. -/
def mkSubtitlesAux : ℕ → List Segment → List Subtitle
  | _, [] => []
  | i, s :: rest => ⟨i, s.start, s.stop, s.text⟩ :: mkSubtitlesAux (i + 1) rest

/-- The subtitle list built from a segment list (1-based indices). -/
def mkSubtitles (segs : List Segment) : List Subtitle := mkSubtitlesAux 1 segs

/-- Lines 175-184: `srt_content = srt.compose(subtitles)`. -/
def assembleSrt (segs : List Segment) : String := srtCompose (mkSubtitles segs)

/-- Line 190: `iso_map = {"en": "eng", "it": "ita", "fr": "fra", "es": "spa",
"de": "deu"}`. -/
def iso_map : List (String × String) :=
  [("en", "eng"), ("it", "ita"), ("fr", "fra"), ("es", "spa"), ("de", "deu")]

/-- Dictionary lookup underlying `iso_map.get(tgt_lang, tgt_lang)`. -/
def lookupIso (tgt : String) : Option String :=
  (iso_map.find? (fun p => p.1 == tgt)).map Prod.snd

/-- Line 191: `alt_lang_code = iso_map.get(tgt_lang, tgt_lang)`. -/
def altLangCode (tgt : String) : String := (lookupIso tgt).getD tgt

/-- Lines 187, 192: `f"{base_name}.{code}.srt"`. -/
def srtFilename (base code : String) : String := base ++ "." ++ code ++ ".srt"

/-- Lines 186-193: the two output paths for one video. -/
def outputPaths (folder base tgt : String) : String × String :=
  (joinPath folder (srtFilename base tgt),
   joinPath folder (srtFilename base (altLangCode tgt)))

/-- Modelled from the spec: the monotonic-ordering invariant of §3/§8 — both
start and end times non-decreasing across the segment sequence.  (The source
contains no such check; this definition exists only to state claims about
it.) -/
def specMonotonicTimes : List Segment → Bool
  | [] => true
  | [_] => true
  | a :: b :: rest =>
      decide (a.start ≤ b.start) && decide (a.stop ≤ b.stop)
        && specMonotonicTimes (b :: rest)

/-- Oracles for the external calls of `main()`.  Each per-call `Option`/
`Bool` records whether the call returns normally or raises. -/
structure Env where
  /-- Does `extract_audio` (ffmpeg, `check=True`) succeed for this output
  path? -/
  extractOk : String → Bool
  /-- `whisper.load_model("medium").transcribe(audio_path)["segments"]`;
  `none` is an exception from loading or transcription. -/
  transcribeRes : String → Option (List Segment)
  /-- The per-text translation call; `none` is a backend exception. -/
  translateRes : String → Option String
  /-- Does `open(path, "w")` + `write` succeed for this path? -/
  writeOk : String → Bool
  /-- Does `pipeline("translation", model="facebook/seamless-m4t-v2-large")`
  succeed (line 140)? -/
  initOk : Bool

/-- Observable filesystem/model actions of one `main()` run, in program
order. -/
inductive Event where
  | initTranslator : Event
  | extractAudio : String → Event
  | loadWhisper : String → Event
  | writeFile : String → String → Event
  | removeFile : String → Event
deriving DecidableEq

/-- Occurrences of an event in a trace. -/
def countEvent (e : Event) : List Event → ℕ
  | [] => 0
  | x :: xs => (if x = e then 1 else 0) + countEvent e xs

/-- Line 157: `audio_path = os.path.join(folder, base_name + ".wav")`. -/
def audioPathOf (folder file : String) : String :=
  joinPath folder (splitextBase file ++ ".wav")

/-- Lines 174-199: build the SRT content and write it to both output paths.
The first `open` failure raises, so a failed first write leaves no second
write; `some` returns the pair appended to `generated_subtitles`.  There is
no monotonicity check anywhere in this step. -/
def assembleAndWrite (writeOk : String → Bool) (folder base tgt : String)
    (segs : List Segment) : List Event × Option (String × String) :=
  if writeOk (outputPaths folder base tgt).1 then
    if writeOk (outputPaths folder base tgt).2 then
      ([Event.writeFile (outputPaths folder base tgt).1 (assembleSrt segs),
        Event.writeFile (outputPaths folder base tgt).2 (assembleSrt segs)],
        some (outputPaths folder base tgt))
    else ([Event.writeFile (outputPaths folder base tgt).1 (assembleSrt segs)], none)
  else ([], none)

/-- Lines 151-205: the body of `for file in selected_files`.  Returns the
events of this iteration and, on full success, the `(srt_path, alt_srt_path)`
pair; `none` means an exception escaped the iteration (there is no
`try`/`except` around any stage).  `os.remove(audio_path)` runs only at line
202, after both subtitle files are written. -/
def processVideo (env : Env) (folder tgt file : String) :
    List Event × Option (String × String) :=
  if env.extractOk (audioPathOf folder file) then
    match env.transcribeRes (audioPathOf folder file) with
    | none =>
        ([Event.extractAudio (audioPathOf folder file), Event.loadWhisper "medium"], none)
    | some segs =>
        match translateLoop env.translateRes segs with
        | none =>
            ([Event.extractAudio (audioPathOf folder file), Event.loadWhisper "medium"], none)
        | some segs2 =>
            match assembleAndWrite env.writeOk folder (splitextBase file) tgt segs2 with
            | (awEvents, none) =>
                ([Event.extractAudio (audioPathOf folder file), Event.loadWhisper "medium"]
                  ++ awEvents, none)
            | (awEvents, some pair) =>
                ([Event.extractAudio (audioPathOf folder file), Event.loadWhisper "medium"]
                  ++ awEvents ++ [Event.removeFile (audioPathOf folder file)], some pair)
  else ([], none)

/-- Outcome of the batch loop: the event trace, the two report lists
(`processed_videos`, `generated_subtitles`), and whether the loop ran to
completion (`false` when an uncaught exception aborted the process). -/
structure BatchResult where
  events : List Event
  processed_videos : List String
  generated_subtitles : List (String × String)
  completed : Bool
deriving DecidableEq

/-- The `for file in selected_files` loop.  An exception in one iteration
propagates: no later file is visited and nothing more is appended to the
report lists. -/
def runBatch (env : Env) (folder tgt : String) : List String → BatchResult
  | [] => ⟨[], [], [], true⟩
  | f :: rest =>
      match processVideo env folder tgt f with
      | (evs, none) => ⟨evs, [], [], false⟩
      | (evs, some pair) =>
          ⟨evs ++ (runBatch env folder tgt rest).events,
            f :: (runBatch env folder tgt rest).processed_videos,
            pair :: (runBatch env folder tgt rest).generated_subtitles,
            (runBatch env folder tgt rest).completed⟩

/-- Lines 139-205 of `main()`: initialize the translation backend once
(line 140; on failure print and `sys.exit(1)` before touching any video),
then run the loop.  The second component is the process exit status (a
Python process that dies on an uncaught exception exits 1). -/
def mainRun (env : Env) (folder tgt : String) (selected_files : List String) :
    BatchResult × ℕ :=
  if env.initOk then
    ({ runBatch env folder tgt selected_files with
        events := Event.initTranslator :: (runBatch env folder tgt selected_files).events },
      if (runBatch env folder tgt selected_files).completed then 0 else 1)
  else (⟨[], [], [], false⟩, 1)

/-- Concrete fixture: the first segment of the spec's §8 scenario (Whisper
emits text with surrounding whitespace, hence the leading space). -/
def segCiao : Segment := ⟨mkRat 0 1, mkRat 5 2, " Ciao"⟩

/-- Concrete fixture: the second segment of the spec's §8 scenario. -/
def segCome : Segment := ⟨mkRat 5 2, mkRat 5 1, " come stai"⟩

/-- Environment in which every external call succeeds. -/
def envAll : Env where
  extractOk := fun _ => true
  transcribeRes := fun _ => some [segCiao, segCome]
  translateRes := fun _ => some "Hello"
  writeOk := fun _ => true
  initOk := true

/-- Environment whose translation-backend construction fails (line 140). -/
def envNoInit : Env := { envAll with initOk := false }

/-- Environment in which ffmpeg fails for `d/a.mp4` (its audio target
`d/a.wav`) but succeeds for every other video. -/
def envBadExtract : Env := { envAll with extractOk := fun p => p != "d/a.wav" }

/-- Environment in which every per-segment translation call raises. -/
def envBadTranslate : Env := { envAll with translateRes := fun _ => none }

/-- A segment list whose time ranges are non-monotonic (the second entry
starts before the first). -/
def badSegs : List Segment :=
  [⟨mkRat 5 2, mkRat 5 1, "b"⟩, ⟨mkRat 0 1, mkRat 5 2, "a"⟩]

theorem countEvent_append (e : Event) (l1 l2 : List Event) :
    countEvent e (l1 ++ l2) = countEvent e l1 + countEvent e l2 := by
  induction l1 with
  | nil => simp [countEvent]
  | cons x xs ih => simp [countEvent, ih, Nat.add_assoc]

theorem countEvent_eq_zero {e : Event} {l : List Event} (h : e ∉ l) :
    countEvent e l = 0 := by
  induction l with
  | nil => rfl
  | cons x xs ih =>
      have hx : ¬(x = e) := fun hx => h (hx ▸ List.mem_cons_self x xs)
      have hxs : e ∉ xs := fun hm => h (List.mem_cons_of_mem x hm)
      simp [countEvent, hx, ih hxs]

theorem mkSubtitlesAux_length (segs : List Segment) :
    ∀ k, (mkSubtitlesAux k segs).length = segs.length := by
  induction segs with
  | nil => intro k; rfl
  | cons s rest ih => intro k; simp [mkSubtitlesAux, ih]

theorem mkSubtitlesAux_get? (segs : List Segment) :
    ∀ k i, (mkSubtitlesAux k segs).get? i =
      (segs.get? i).map (fun s => Subtitle.mk (k + i) s.start s.stop s.text) := by
  induction segs with
  | nil => intro k i; simp [mkSubtitlesAux]
  | cons s rest ih =>
      intro k i
      cases i with
      | zero => simp [mkSubtitlesAux]
      | succ j =>
          simp only [mkSubtitlesAux, List.get?]
          rw [ih (k + 1) j]
          simp [show k + 1 + j = k + (j + 1) from by omega]

theorem translateLoop_length (tr : String → Option String) :
    ∀ (segs out : List Segment), translateLoop tr segs = some out →
      out.length = segs.length
  | [], out, h => by
      simp [translateLoop] at h
      simp [← h]
  | s :: rest, out, h => by
      unfold translateLoop at h
      cases htr : tr (pyStrip s.text) <;> rw [htr] at h
      · exact absurd h (by simp)
      · cases hrec : translateLoop tr rest <;> rw [hrec] at h <;> dsimp only at h
        · exact absurd h (by simp)
        · rename_i t rest2
          injection h with h
          rw [← h]
          simp [translateLoop_length tr rest rest2 hrec]

theorem translateLoop_times (tr : String → Option String) :
    ∀ (segs out : List Segment), translateLoop tr segs = some out →
      ∀ i, (out.get? i).map (fun s => (s.start, s.stop)) =
        (segs.get? i).map (fun s => (s.start, s.stop))
  | [], out, h => by
      simp [translateLoop] at h
      simp [← h]
  | s :: rest, out, h => by
      unfold translateLoop at h
      cases htr : tr (pyStrip s.text) <;> rw [htr] at h
      · exact absurd h (by simp)
      · cases hrec : translateLoop tr rest <;> rw [hrec] at h <;> dsimp only at h
        · exact absurd h (by simp)
        · rename_i t rest2
          injection h with h
          intro i
          rw [← h]
          cases i with
          | zero => rfl
          | succ j =>
              simpa using translateLoop_times tr rest rest2 hrec j

/-- Claim C4: for every transcribed segment sequence, the assembled subtitle
document has exactly one entry per segment with contiguous 1-based indices,
and entry `i`'s time range equals segment `i`'s original `(start, end)`
unchanged by the translation step, which replaces only each segment's text
while preserving count and order. -/
theorem C4_subtitle_entries_match_segments (tr : String → Option String)
    (segs out : List Segment) (h : translateLoop tr segs = some out) :
    out.length = segs.length ∧
    (∀ i, (out.get? i).map (fun s => (s.start, s.stop)) =
      (segs.get? i).map (fun s => (s.start, s.stop))) ∧
    (mkSubtitles out).length = segs.length ∧
    (∀ i, (mkSubtitles out).get? i =
      (out.get? i).map (fun s => Subtitle.mk (i + 1) s.start s.stop s.text)) := by
  refine ⟨translateLoop_length tr segs out h, translateLoop_times tr segs out h, ?_, ?_⟩
  · rw [mkSubtitles, mkSubtitlesAux_length, translateLoop_length tr segs out h]
  · intro i
    rw [mkSubtitles, mkSubtitlesAux_get?]
    simp [Nat.add_comm]

/-- Witness for C4 at the spec's §8 scenario: two segments, both translated,
assembled into two entries with indices 1 and 2 and unchanged timings. -/
theorem C4_subtitle_entries_match_segments_witness :
    [Segment.mk (mkRat 0 1) (mkRat 5 2) "Hello",
      Segment.mk (mkRat 5 2) (mkRat 5 1) "Hello"].length = [segCiao, segCome].length ∧
    (∀ i, ([Segment.mk (mkRat 0 1) (mkRat 5 2) "Hello",
        Segment.mk (mkRat 5 2) (mkRat 5 1) "Hello"].get? i).map
          (fun s => (s.start, s.stop)) =
      ([segCiao, segCome].get? i).map (fun s => (s.start, s.stop))) ∧
    (mkSubtitles [Segment.mk (mkRat 0 1) (mkRat 5 2) "Hello",
      Segment.mk (mkRat 5 2) (mkRat 5 1) "Hello"]).length = [segCiao, segCome].length ∧
    (∀ i, (mkSubtitles [Segment.mk (mkRat 0 1) (mkRat 5 2) "Hello",
        Segment.mk (mkRat 5 2) (mkRat 5 1) "Hello"]).get? i =
      ([Segment.mk (mkRat 0 1) (mkRat 5 2) "Hello",
        Segment.mk (mkRat 5 2) (mkRat 5 1) "Hello"].get? i).map
          (fun s => Subtitle.mk (i + 1) s.start s.stop s.text)) :=
  C4_subtitle_entries_match_segments (fun _ => some "Hello") [segCiao, segCome]
    [Segment.mk (mkRat 0 1) (mkRat 5 2) "Hello",
      Segment.mk (mkRat 5 2) (mkRat 5 1) "Hello"] (by decide)

/-- Claim C7 as stated is false: the serialized time range uses a comma
between seconds and milliseconds (`HH:MM:SS,mmm`, the SubRip standard and
what `srt.compose` emits), not a dot.  Concretely, the entry for a segment
ending at 2.5 s serializes with `00:00:02,500`. -/
theorem C7_counterexample :
    subtitleToSrt ⟨1, mkRat 0 1, mkRat 5 2, "Hello"⟩ =
      "1\n00:00:00,000 --> 00:00:02,500\nHello\n\n" ∧
    srtTimestamp (mkRat 5 2) = "00:00:02,500" ∧
    srtTimestamp (mkRat 5 2) ≠ "00:00:02.500" := by
  refine ⟨by decide, by decide, by decide⟩

/-- Claim C7 amended: each entry's time range is formatted as
`hours:minutes:seconds,milliseconds` — two-digit-padded hours, minutes and
seconds and three-digit-padded milliseconds, with a comma (not a dot)
separating seconds from milliseconds. -/
theorem C7_timestamp_comma_format (h m s ms : ℕ)
    (hm : m < 60) (hs : s < 60) (hms : ms < 1000) :
    srtTimestampOfMicros (((h * 3600 + m * 60 + s) * 1000 + ms) * 1000) =
      pad2 h ++ ":" ++ pad2 m ++ ":" ++ pad2 s ++ "," ++ pad3 ms := by
  unfold srtTimestampOfMicros
  have e1 : ((h * 3600 + m * 60 + s) * 1000 + ms) * 1000 / 1000000 / 3600 = h := by omega
  have e2 : ((h * 3600 + m * 60 + s) * 1000 + ms) * 1000 / 1000000 % 3600 / 60 = m := by
    omega
  have e3 : ((h * 3600 + m * 60 + s) * 1000 + ms) * 1000 / 1000000 % 60 = s := by omega
  have e4 : ((h * 3600 + m * 60 + s) * 1000 + ms) * 1000 % 1000000 / 1000 = ms := by omega
  rw [e1, e2, e3, e4]

/-- Witness for C7's amended statement at 1 h 2 min 3.456 s. -/
theorem C7_timestamp_comma_format_witness :
    srtTimestampOfMicros (((1 * 3600 + 2 * 60 + 3) * 1000 + 456) * 1000) =
      pad2 1 ++ ":" ++ pad2 2 ++ ":" ++ pad2 3 ++ "," ++ pad3 456 :=
  C7_timestamp_comma_format 1 2 3 456 (by decide) (by decide) (by decide)

/-- Claim C8: the list of videos offered for selection contains exactly the
entries of the folder whose name ends with `.mp4` case-insensitively, and
every processed (selected) file is such an entry. -/
theorem C8_only_mp4_listed_and_processed (entries : List String) :
    (∀ f, f ∈ listVideoFiles entries ↔
      f ∈ entries ∧ pyEndsWith (pyLower f) ".mp4" = true) ∧
    (∀ (idxs : List ℤ) (f : String), f ∈ selectFiles (listVideoFiles entries) idxs →
      f ∈ entries ∧ pyEndsWith (pyLower f) ".mp4" = true) := by
  constructor
  · intro f
    simp [listVideoFiles, List.mem_filter]
  · intro idxs f hf
    have : f ∈ listVideoFiles entries := by
      induction idxs with
      | nil => simp [selectFiles] at hf
      | cons i is ih =>
          rw [selectFiles] at hf
          cases hg : (listVideoFiles entries).get? (i - 1).toNat <;> rw [hg] at hf
          · exact ih hf
          · rcases List.mem_cons.1 hf with h | h
            · subst h
              exact List.get?_mem hg
            · exact ih h
    simpa [listVideoFiles, List.mem_filter] using this

/-- Witness for C8: in a folder with `A.MP4`, `b.txt` and `c.mp4`, the file
`c.mp4` is listed, and the selection `[2]` processes it; it is an entry
ending in `.mp4` case-insensitively. -/
theorem C8_only_mp4_listed_and_processed_witness :
    ("c.mp4" ∈ listVideoFiles ["A.MP4", "b.txt", "c.mp4"] ↔
      "c.mp4" ∈ ["A.MP4", "b.txt", "c.mp4"] ∧
        pyEndsWith (pyLower "c.mp4") ".mp4" = true) ∧
    ("c.mp4" ∈ ["A.MP4", "b.txt", "c.mp4"] ∧
      pyEndsWith (pyLower "c.mp4") ".mp4" = true) :=
  ⟨(C8_only_mp4_listed_and_processed ["A.MP4", "b.txt", "c.mp4"]).1 "c.mp4",
    (C8_only_mp4_listed_and_processed ["A.MP4", "b.txt", "c.mp4"]).2 [2] "c.mp4"
      (by decide)⟩

theorem parseAll_length :
    ∀ (ts : List String) (idxs : List ℤ), parseAll ts = some idxs →
      idxs.length = ts.length
  | [], idxs, h => by
      simp [parseAll] at h
      simp [← h]
  | t :: ts, idxs, h => by
      unfold parseAll at h
      cases hp : parsePyInt t <;> rw [hp] at h
      · exact absurd h (by simp)
      · cases hr : parseAll ts <;> rw [hr] at h <;> dsimp only at h
        · exact absurd h (by simp)
        · rename_i i is
          injection h with h
          rw [← h]
          simp [parseAll_length ts is hr]

theorem readSelection_bounds {n : ℕ} {tokens : List String} {idxs : List ℤ}
    (h : readSelection n tokens = some idxs) :
    parseAll tokens = some idxs ∧ ∀ i ∈ idxs, 1 ≤ i ∧ i ≤ (n : ℤ) := by
  unfold readSelection at h
  cases hp : parseAll tokens <;> rw [hp] at h
  · exact absurd h (by simp)
  · rename_i is
    dsimp only at h
    by_cases ha : is.any (fun i => decide (i < 1) || decide ((n : ℤ) < i)) = true
    · rw [if_pos ha] at h
      exact absurd h (by simp)
    · rw [if_neg ha] at h
      injection h with h
      subst h
      refine ⟨rfl, ?_⟩
      intro i hi
      by_contra hc
      apply ha
      rw [List.any_eq_true]
      refine ⟨i, hi, ?_⟩
      simp only [Bool.or_eq_true, decide_eq_true_eq]
      omega

theorem selectFiles_length (files : List String) :
    ∀ (idxs : List ℤ), (∀ i ∈ idxs, 1 ≤ i ∧ i ≤ (files.length : ℤ)) →
      (selectFiles files idxs).length = idxs.length
  | [], _ => rfl
  | i :: is, h => by
      have hb := h i (List.mem_cons_self i is)
      cases hg : files.get? (i - 1).toNat with
      | none =>
          have := List.get?_eq_none.1 hg
          omega
      | some f =>
          have hrec := selectFiles_length files is
            (fun j hj => h j (List.mem_cons_of_mem i hj))
          rw [selectFiles, hg]
          simp [hrec]

/-- Claim C10: an accepted selection input has every token parsed as an
integer `i` with `1 ≤ i ≤` the number of listed files, so `video_files[i-1]`
is always in bounds; duplicates are kept, one processed file per
occurrence. -/
theorem C10_selection_bounds_safe (files tokens : List String) (idxs : List ℤ)
    (h : readSelection files.length tokens = some idxs) :
    idxs.length = tokens.length ∧
    (∀ i ∈ idxs, 1 ≤ i ∧ i ≤ (files.length : ℤ)) ∧
    (∀ i ∈ idxs, ∃ f, files.get? (i - 1).toNat = some f) ∧
    (selectFiles files idxs).length = idxs.length := by
  obtain ⟨hp, hb⟩ := readSelection_bounds h
  refine ⟨parseAll_length tokens idxs hp, hb, ?_, selectFiles_length files idxs hb⟩
  intro i hi
  have := hb i hi
  cases hg : files.get? (i - 1).toNat with
  | none =>
      have := List.get?_eq_none.1 hg
      omega
  | some f => exact ⟨f, rfl⟩

/-- Witness for C10: two listed files, input `1 2 1` (a duplicate), accepted
with bounds satisfied and three files selected — one per occurrence. -/
theorem C10_selection_bounds_safe_witness :
    ([1, 2, 1] : List ℤ).length = ["1", "2", "1"].length ∧
    (∀ i ∈ ([1, 2, 1] : List ℤ), 1 ≤ i ∧ i ≤ (["a.mp4", "b.mp4"].length : ℤ)) ∧
    (∀ i ∈ ([1, 2, 1] : List ℤ),
      ∃ f, ["a.mp4", "b.mp4"].get? (i - 1).toNat = some f) ∧
    (selectFiles ["a.mp4", "b.mp4"] [1, 2, 1]).length = ([1, 2, 1] : List ℤ).length :=
  C10_selection_bounds_safe ["a.mp4", "b.mp4"] ["1", "2", "1"] [1, 2, 1] (by decide)

theorem assembleAndWrite_cases (w : String → Bool) (folder base tgt : String)
    (segs : List Segment) :
    assembleAndWrite w folder base tgt segs =
        ([Event.writeFile (outputPaths folder base tgt).1 (assembleSrt segs),
          Event.writeFile (outputPaths folder base tgt).2 (assembleSrt segs)],
          some (outputPaths folder base tgt)) ∨
    assembleAndWrite w folder base tgt segs =
        ([Event.writeFile (outputPaths folder base tgt).1 (assembleSrt segs)], none) ∨
    assembleAndWrite w folder base tgt segs = ([], none) := by
  unfold assembleAndWrite
  by_cases h1 : w (outputPaths folder base tgt).1 = true
  · rw [if_pos h1]
    by_cases h2 : w (outputPaths folder base tgt).2 = true
    · rw [if_pos h2]
      left
      rfl
    · rw [if_neg h2]
      right
      left
      rfl
  · rw [if_neg h1]
    right
    right
    rfl

theorem processVideo_cases (env : Env) (folder tgt file : String) :
    processVideo env folder tgt file = ([], none) ∨
    processVideo env folder tgt file =
      ([Event.extractAudio (audioPathOf folder file), Event.loadWhisper "medium"], none) ∨
    (∃ c, processVideo env folder tgt file =
      ([Event.extractAudio (audioPathOf folder file), Event.loadWhisper "medium",
        Event.writeFile (outputPaths folder (splitextBase file) tgt).1 c], none)) ∨
    (∃ c, processVideo env folder tgt file =
      ([Event.extractAudio (audioPathOf folder file), Event.loadWhisper "medium",
        Event.writeFile (outputPaths folder (splitextBase file) tgt).1 c,
        Event.writeFile (outputPaths folder (splitextBase file) tgt).2 c,
        Event.removeFile (audioPathOf folder file)],
        some (outputPaths folder (splitextBase file) tgt))) := by
  unfold processVideo
  by_cases hx : env.extractOk (audioPathOf folder file) = true
  · rw [if_pos hx]
    cases ht : env.transcribeRes (audioPathOf folder file) with
    | none =>
        right
        left
        rfl
    | some segs =>
        dsimp only
        cases htr : translateLoop env.translateRes segs with
        | none =>
            right
            left
            rfl
        | some segs2 =>
            dsimp only
            rcases assembleAndWrite_cases env.writeOk folder (splitextBase file) tgt segs2
              with haw | haw | haw
            · right
              right
              right
              exact ⟨assembleSrt segs2, by rw [haw]; rfl⟩
            · right
              right
              left
              exact ⟨assembleSrt segs2, by rw [haw]; rfl⟩
            · right
              left
              rw [haw]
              rfl
  · rw [if_neg hx]
    left
    rfl

theorem processVideo_no_init (env : Env) (folder tgt file : String) :
    Event.initTranslator ∉ (processVideo env folder tgt file).1 := by
  rcases processVideo_cases env folder tgt file with h | h | ⟨c, h⟩ | ⟨c, h⟩ <;>
    simp [h]

theorem processVideo_load_count (env : Env) (folder tgt file : String)
    (h : (processVideo env folder tgt file).2.isSome = true) :
    countEvent (Event.loadWhisper "medium") (processVideo env folder tgt file).1 = 1 := by
  rcases processVideo_cases env folder tgt file with hc | hc | ⟨c, hc⟩ | ⟨c, hc⟩
  · rw [hc] at h
    simp at h
  · rw [hc] at h
    simp at h
  · rw [hc] at h
    simp at h
  · rw [hc]
    simp [countEvent]

theorem runBatch_no_init (env : Env) (folder tgt : String) (files : List String) :
    countEvent Event.initTranslator (runBatch env folder tgt files).events = 0 := by
  induction files with
  | nil => rfl
  | cons f rest ih =>
      unfold runBatch
      cases hpv : processVideo env folder tgt f with
      | mk evs res =>
          have h0 : countEvent Event.initTranslator evs = 0 :=
            countEvent_eq_zero
              (fun hm => processVideo_no_init env folder tgt f (by rw [hpv]; exact hm))
          cases res with
          | none => exact h0
          | some pair =>
              dsimp only
              rw [countEvent_append, h0, ih]

theorem runBatch_load_count (env : Env) (folder tgt : String) (files : List String)
    (h : (runBatch env folder tgt files).completed = true) :
    countEvent (Event.loadWhisper "medium") (runBatch env folder tgt files).events
      = files.length := by
  induction files with
  | nil => rfl
  | cons f rest ih =>
      unfold runBatch at h ⊢
      cases hpv : processVideo env folder tgt f with
      | mk evs res =>
          rw [hpv] at h
          cases res with
          | none => simp at h
          | some pair =>
              dsimp only at h ⊢
              rw [countEvent_append]
              have h1 : countEvent (Event.loadWhisper "medium") evs = 1 := by
                have h2 := processVideo_load_count env folder tgt f (by rw [hpv]; rfl)
                rw [hpv] at h2
                exact h2
              rw [h1, ih h]
              simp [Nat.add_comm]

/-- Claim C1 as stated is false.  With extraction failing for `a.mp4` only,
the batch of `[a.mp4, b.mp4]` does not advance to `b.mp4`: the whole trace
after translator initialization is empty (in particular no events for
`b.mp4`, which would have succeeded, as the last conjunct shows), no video
reaches the report, and the process dies with exit status 1. -/
theorem C1_counterexample :
    (mainRun envBadExtract "d" "en" ["a.mp4", "b.mp4"]).1.events =
      [Event.initTranslator] ∧
    (mainRun envBadExtract "d" "en" ["a.mp4", "b.mp4"]).1.processed_videos = [] ∧
    (mainRun envBadExtract "d" "en" ["a.mp4", "b.mp4"]).1.completed = false ∧
    (mainRun envBadExtract "d" "en" ["a.mp4", "b.mp4"]).2 = 1 ∧
    (processVideo envBadExtract "d" "en" "b.mp4").2.isSome = true := by
  decide

/-- Claim C1 amended: a failure at any per-video stage raises an uncaught
exception (there is no `try`/`except` in the loop) that aborts the entire
batch: the failing video is recorded in no report list, no later selected
video is visited, and the process exits with status 1. -/
theorem C1_stage_failure_aborts_batch (env : Env) (folder tgt f : String)
    (rest : List String) (h : (processVideo env folder tgt f).2 = none) :
    runBatch env folder tgt (f :: rest) =
      ⟨(processVideo env folder tgt f).1, [], [], false⟩ ∧
    (mainRun env folder tgt (f :: rest)).2 = 1 := by
  have h1 : runBatch env folder tgt (f :: rest) =
      ⟨(processVideo env folder tgt f).1, [], [], false⟩ := by
    unfold runBatch
    cases hpv : processVideo env folder tgt f with
    | mk evs res =>
        cases res with
        | none => rfl
        | some pair =>
            rw [hpv] at h
            simp at h
  refine ⟨h1, ?_⟩
  unfold mainRun
  by_cases hi : env.initOk = true
  · rw [hi]
    simp [h1]
  · simp only [Bool.not_eq_true] at hi
    rw [hi]
    simp

/-- Witness for C1's amended statement: extraction fails for `a.mp4`, the
loop over `[a.mp4, b.mp4]` stops with an empty report and exit status 1. -/
theorem C1_stage_failure_aborts_batch_witness :
    runBatch envBadExtract "d" "en" ("a.mp4" :: ["b.mp4"]) =
      ⟨(processVideo envBadExtract "d" "en" "a.mp4").1, [], [], false⟩ ∧
    (mainRun envBadExtract "d" "en" ("a.mp4" :: ["b.mp4"])).2 = 1 :=
  C1_stage_failure_aborts_batch envBadExtract "d" "en" "a.mp4" ["b.mp4"] (by decide)

/-- Claim C2 as stated is false.  When a downstream stage (here: every
per-segment translation call) fails after a successful transcription, the
iteration's trace contains the `.wav` creation but no removal: the audio
artifact outlives its producing run. -/
theorem C2_counterexample :
    (processVideo envBadTranslate "d" "en" "a.mp4").1 =
      [Event.extractAudio "d/a.wav", Event.loadWhisper "medium"] ∧
    Event.removeFile "d/a.wav" ∉ (processVideo envBadTranslate "d" "en" "a.mp4").1 := by
  decide

/-- Claim C2 amended: `os.remove(audio_path)` runs only at line 202, at the
very end of a fully successful iteration — the audio file is deleted iff
transcription, translation, assembly and both writes all succeeded, and the
removal is then the final event of the video's run; on any downstream
failure the `.wav` file is left behind. -/
theorem C2_audio_removed_only_after_success (env : Env) (folder tgt file : String) :
    (Event.removeFile (audioPathOf folder file) ∈ (processVideo env folder tgt file).1 ↔
      (processVideo env folder tgt file).2.isSome = true) ∧
    ((processVideo env folder tgt file).2.isSome = true →
      (processVideo env folder tgt file).1.getLast? =
        some (Event.removeFile (audioPathOf folder file))) := by
  rcases processVideo_cases env folder tgt file with h | h | ⟨c, h⟩ | ⟨c, h⟩ <;>
    rw [h] <;> simp

/-- Witness for C2's amended statement in the all-success environment: the
audio file of `a.mp4` is removed, and the removal closes the iteration. -/
theorem C2_audio_removed_only_after_success_witness :
    (Event.removeFile (audioPathOf "d" "a.mp4") ∈
        (processVideo envAll "d" "en" "a.mp4").1 ↔
      (processVideo envAll "d" "en" "a.mp4").2.isSome = true) ∧
    (processVideo envAll "d" "en" "a.mp4").1.getLast? =
      some (Event.removeFile (audioPathOf "d" "a.mp4")) :=
  ⟨(C2_audio_removed_only_after_success envAll "d" "en" "a.mp4").1,
    (C2_audio_removed_only_after_success envAll "d" "en" "a.mp4").2 (by decide)⟩

/-- Claim C3: the translation backend is initialized exactly once, before the
per-video loop; if that initialization fails, the process exits with status 1
and an empty trace — no audio was extracted, no temporary file exists. -/
theorem C3_translator_init_once_before_loop (env : Env) (folder tgt : String)
    (files : List String) :
    (env.initOk = false →
      mainRun env folder tgt files = (⟨[], [], [], false⟩, 1)) ∧
    (env.initOk = true →
      (mainRun env folder tgt files).1.events.head? = some Event.initTranslator ∧
      countEvent Event.initTranslator (mainRun env folder tgt files).1.events = 1) := by
  constructor
  · intro h
    unfold mainRun
    rw [h]
    simp
  · intro h
    unfold mainRun
    rw [h]
    refine ⟨by simp, ?_⟩
    simp [countEvent, runBatch_no_init]

/-- Witness for C3, both branches: with a failing backend nothing at all
happens (exit 1); with a working backend the very first event is the single
translator initialization. -/
theorem C3_translator_init_once_before_loop_witness :
    mainRun envNoInit "d" "en" ["a.mp4"] = (⟨[], [], [], false⟩, 1) ∧
    ((mainRun envAll "d" "en" ["a.mp4"]).1.events.head? = some Event.initTranslator ∧
      countEvent Event.initTranslator (mainRun envAll "d" "en" ["a.mp4"]).1.events = 1) :=
  ⟨(C3_translator_init_once_before_loop envNoInit "d" "en" ["a.mp4"]).1 (by decide),
    (C3_translator_init_once_before_loop envAll "d" "en" ["a.mp4"]).2 (by decide)⟩

/-- Claim C9: in a completed batch the Whisper model is loaded freshly inside
the loop — exactly one `load_model("medium")` per selected video — while the
translation backend is initialized exactly once for the whole batch. -/
theorem C9_whisper_loaded_per_video (env : Env) (folder tgt : String)
    (files : List String) (hinit : env.initOk = true)
    (hdone : (mainRun env folder tgt files).1.completed = true) :
    countEvent (Event.loadWhisper "medium") (mainRun env folder tgt files).1.events
      = files.length ∧
    countEvent Event.initTranslator (mainRun env folder tgt files).1.events = 1 := by
  unfold mainRun at hdone ⊢
  rw [hinit] at hdone ⊢
  simp only [if_true] at hdone ⊢
  have hc : (runBatch env folder tgt files).completed = true := hdone
  constructor
  · simp [countEvent, runBatch_load_count env folder tgt files hc]
  · simp [countEvent, runBatch_no_init]

/-- Witness for C9: a completed two-video batch has exactly two Whisper
loads and one translator initialization. -/
theorem C9_whisper_loaded_per_video_witness :
    countEvent (Event.loadWhisper "medium")
        (mainRun envAll "d" "en" ["clip1.mp4", "clip2.mp4"]).1.events = 2 ∧
    countEvent Event.initTranslator
        (mainRun envAll "d" "en" ["clip1.mp4", "clip2.mp4"]).1.events = 1 := by
  have h := C9_whisper_loaded_per_video envAll "d" "en" ["clip1.mp4", "clip2.mp4"]
    (by decide) (by decide)
  simpa using h

/-- Claim C5: the two output paths are `B.T.srt` and `B.A.srt` with `A` the
three-letter code of `T` under the fixed map (`en → eng`, …); an unmapped
code makes both paths coincide; and when both writes happen they carry the
same serialized content (for `en`: `B.en.srt` and `B.eng.srt`,
byte-identical). -/
theorem C5_output_pair (folder base tgt : String) (w : String → Bool)
    (segs : List Segment) :
    outputPaths folder base "en" =
      (joinPath folder (srtFilename base "en"), joinPath folder (srtFilename base "eng")) ∧
    (lookupIso tgt = none →
      (outputPaths folder base tgt).1 = (outputPaths folder base tgt).2) ∧
    (w (outputPaths folder base tgt).1 = true → w (outputPaths folder base tgt).2 = true →
      (assembleAndWrite w folder base tgt segs).1 =
        [Event.writeFile (outputPaths folder base tgt).1 (assembleSrt segs),
         Event.writeFile (outputPaths folder base tgt).2 (assembleSrt segs)]) := by
  refine ⟨?_, ?_, ?_⟩
  · show (joinPath folder (srtFilename base "en"),
      joinPath folder (srtFilename base (altLangCode "en"))) = _
    rw [show altLangCode "en" = "eng" from by decide]
  · intro h
    simp [outputPaths, altLangCode, h]
  · intro h1 h2
    unfold assembleAndWrite
    rw [if_pos h1, if_pos h2]

/-- Witness for C5: concrete folder `d`, base `clip1`; the unmapped code
`xx` collapses both paths, and the two writes of one assembled document
carry identical content. -/
theorem C5_output_pair_witness :
    outputPaths "d" "clip1" "en" =
      (joinPath "d" (srtFilename "clip1" "en"), joinPath "d" (srtFilename "clip1" "eng")) ∧
    (outputPaths "d" "clip1" "xx").1 = (outputPaths "d" "clip1" "xx").2 ∧
    (assembleAndWrite (fun _ => true) "d" "clip1" "xx" [segCiao]).1 =
      [Event.writeFile (outputPaths "d" "clip1" "xx").1 (assembleSrt [segCiao]),
       Event.writeFile (outputPaths "d" "clip1" "xx").2 (assembleSrt [segCiao])] :=
  ⟨(C5_output_pair "d" "clip1" "xx" (fun _ => true) [segCiao]).1,
    (C5_output_pair "d" "clip1" "xx" (fun _ => true) [segCiao]).2.1 (by decide),
    (C5_output_pair "d" "clip1" "xx" (fun _ => true) [segCiao]).2.2 (by decide) (by decide)⟩

/-- Claim C6 as stated is false: the assembler performs no monotonicity check
(and the code defines no `AssemblyError` at all) — for this concrete
non-monotonic segment sequence, assembly and both writes succeed and output
is produced. -/
theorem C6_counterexample :
    specMonotonicTimes badSegs = false ∧
    (assembleAndWrite (fun _ => true) "d" "clip" "en" badSegs).2.isSome = true := by
  decide

/-- Claim C6 amended: the assemble-and-write step contains no monotonicity
check and its serialization is total (`srt.compose` silently sorts); for
every segment sequence — monotonic or not — it fails exactly when a
filesystem write fails. -/
theorem C6_fails_only_on_write_failure (w : String → Bool)
    (folder base tgt : String) (segs : List Segment) :
    (assembleAndWrite w folder base tgt segs).2.isSome =
      (w (outputPaths folder base tgt).1 && w (outputPaths folder base tgt).2) := by
  unfold assembleAndWrite
  cases h1 : w (outputPaths folder base tgt).1 <;>
    cases h2 : w (outputPaths folder base tgt).2 <;> simp [h1, h2]

end TranslatedSubs
